import Mathlib

/-!
Verification development for the reachinbox-email-scheduler backend.

The definitions below are a shallow embedding of the scheduling and
delivery core of the repository:
  * `src/backend/src/routes/emailRoutes.ts`  (POST /schedule-email handler)
  * `src/backend/src/models/EmailModel.ts`   (createScheduledEmail,
    updateScheduledEmailStatus, createSentEmail)
  * `src/backend/src/services/RateLimiter.ts` (canSendEmail,
    incrementSentCount, getCurrentHour, getSecondsUntilNextHour)
  * `src/backend/src/workers/emailWorker.ts` (the worker processor)
  * `src/backend/src/config/redis.ts`        (queue defaultJobOptions:
    attempts 3, exponential backoff with base delay 2000 ms)

Machine integers of the source (JS numbers holding epoch milliseconds and
counters) are modelled as `Nat`; all instants are absolute UTC epoch
milliseconds, matching `Date.getTime()` on the post-1970 instants the
validation admits.  Fallible calls are modelled with `Except`.  The BullMQ
retry driver (attempts / exponential backoff) is modelled from its
configuration in `redis.ts` together with the documented BullMQ semantics.
-/

namespace ReachInbox

instance : DecidableEq (Except String String) := fun a b =>
  match a, b with
  | .ok x, .ok y =>
      if h : x = y then isTrue (congrArg Except.ok h)
      else isFalse fun hh => h (Except.ok.inj hh)
  | .error x, .error y =>
      if h : x = y then isTrue (congrArg Except.error h)
      else isFalse fun hh => h (Except.error.inj hh)
  | .ok _, .error _ => isFalse fun hh => Except.noConfusion hh
  | .error _, .ok _ => isFalse fun hh => Except.noConfusion hh

/-- Status enum of the `scheduled_emails` table
(`'pending' | 'processing' | 'completed' | 'failed'`). -/
inductive Status
  | pending
  | processing
  | completed
  | failed
deriving DecidableEq, Repr

/-- One row of the `scheduled_emails` table (the fields the core mutates). -/
structure ScheduledRow where
  recipient_email : String
  subject : String
  body : String
  scheduled_time : Nat
  status : Status
  error_message : Option String
deriving DecidableEq, Repr

/-- One row of the `sent_emails` table; `job_id` carries a UNIQUE constraint. -/
structure SentRow where
  job_id : String
  recipient_email : String
  ethereal_message_id : Option String
deriving DecidableEq, Repr

/-- The payload `addEmailJob` places on the queue and the worker reads from
`job.data`.  Note: it has no hourly-limit field; the request-level
`hourlyLimit` is not part of the payload in `emailQueue.ts`. -/
structure JobData where
  recipientEmail : String
  subject : String
  body : String
  scheduledTime : Nat
  jobId : String
  senderEmail : Option String
deriving DecidableEq, Repr

/-- The `errorMessage || null` coercion in `updateScheduledEmailStatus`:
an absent or empty message is stored as SQL NULL. -/
def normErr : Option String → Option String
  | some s => if s = "" then none else some s
  | none => none

/-- `updateScheduledEmailStatus(jobId, status, errorMessage?)`: an
unconditional SQL UPDATE of the row with the given `job_id`; it sets both
`status` and `error_message` with no guard on the previous status. -/
def updateScheduledEmailStatus (store : List (String × ScheduledRow))
    (jobId : String) (s : Status) (e : Option String) :
    List (String × ScheduledRow) :=
  store.map fun p =>
    if p.1 == jobId then (p.1, { p.2 with status := s, error_message := normErr e })
    else p

/-- `createSentEmail`: INSERT into `sent_emails`; the UNIQUE constraint on
`job_id` makes the insert of a duplicate id fail. -/
def createSentEmail (sent : List SentRow) (r : SentRow) :
    Except String (List SentRow) :=
  if sent.any (fun x => x.job_id == r.job_id) then
    .error ("Duplicate entry " ++ r.job_id ++ " for key sent_emails.job_id")
  else
    .ok (sent ++ [r])

/-- Gregorian civil date from a day count since 1970-01-01 (the
`getUTCFullYear`/`getUTCMonth`/`getUTCDate` getters of a JS `Date`). -/
def civilFromDays (z : Nat) : Nat × Nat × Nat :=
  let zz := z + 719468
  let era := zz / 146097
  let doe := zz % 146097
  let yoe := (doe - doe / 1460 + doe / 36524 - doe / 146096) / 365
  let y := yoe + era * 400
  let doy := doe - (365 * yoe + yoe / 4 - yoe / 100)
  let mp := (5 * doy + 2) / 153
  let d := doy - (153 * mp + 2) / 5 + 1
  let m := if mp < 10 then mp + 3 else mp - 9
  (if m ≤ 2 then y + 1 else y, m, d)

/-- The `padStart(2, '0')` formatting used by `getCurrentHour`. -/
def pad2 (n : Nat) : String :=
  if n < 10 then "0" ++ toString n else toString n

/-- `getCurrentHour()`: the `YYYY-MM-DD-HH` UTC calendar-hour bucket of
"now". -/
def getCurrentHour (nowMs : Nat) : String :=
  let c := civilFromDays (nowMs / 86400000)
  let hour := nowMs % 86400000 / 3600000
  toString c.1 ++ "-" ++ pad2 c.2.1 ++ "-" ++ pad2 c.2.2 ++ "-" ++ pad2 hour

/-- The Redis key `rate_limit:SENDER:BUCKET` used by the rate limiter. -/
def rateKey (sender : String) (nowMs : Nat) : String :=
  "rate_limit:" ++ sender ++ ":" ++ getCurrentHour nowMs

/-- `getSecondsUntilNextHour()`: seconds from "now" to the next UTC hour
boundary. -/
def getSecondsUntilNextHour (nowMs : Nat) : Nat :=
  (3600000 - nowMs % 3600000) / 1000

/-- Value of a Redis counter key (a missing key reads as 0, matching
`count ? parseInt(count) : 0`). -/
def counterOf (cs : List (String × Nat)) (k : String) : Nat :=
  (cs.lookup k).getD 0

/-- Redis `INCR`: increments an existing key, or creates it with value 1. -/
def incrKey (cs : List (String × Nat)) (k : String) : List (String × Nat) :=
  match cs with
  | [] => [(k, 1)]
  | (k', n) :: rest =>
      if k' == k then (k', n + 1) :: rest else (k', n) :: incrKey rest k

/-- `canSendEmail(senderEmail)`: reads the counter for
`(sender, current hour bucket)` and compares it with the configured hourly
limit (`HOURLY_EMAIL_LIMIT`, default 100, threaded here as `limit`).  If
the Redis read fails (`redisUp = false`) the catch block returns `true`
(fail open). -/
def canSendEmail (limit : Nat) (redisUp : Bool) (cs : List (String × Nat))
    (sender : String) (nowMs : Nat) : Bool :=
  if redisUp then decide (counterOf cs (rateKey sender nowMs) < limit)
  else true

/-- Observable side effects of one worker delivery, in program order. -/
inductive WorkerEvent
  | statusUpdate (jobId : String) (s : Status) (err : Option String)
  | transportSend (dest subj bod : String)
  | ledgerIncr (key : String)
  | sentInsert (jobId : String)
deriving DecidableEq, Repr

/-- Does the event record a transport invocation? -/
def isTransportSendEvent : WorkerEvent → Bool
  | .transportSend _ _ _ => true
  | _ => false

/-- Does the event record a Redis counter increment? -/
def isLedgerIncrEvent : WorkerEvent → Bool
  | .ledgerIncr _ => true
  | _ => false

/-- Statuses written to the Store by a trace, in order. -/
def statusWrites (evs : List WorkerEvent) : List Status :=
  evs.filterMap fun e =>
    match e with
    | .statusUpdate _ s _ => some s
    | _ => none

/-- `incrementSentCount(senderEmail)`: Redis `INCR` on the
`(sender, current hour bucket)` key, setting the key TTL to the end of the
hour when the new count is 1.  The whole body is wrapped in try/catch: if
the Redis write fails (`redisUp = false`) the error is only logged, so the
increment and the expiry are silently skipped and nothing is raised to the
caller. -/
def incrementSentCount (redisUp : Bool) (cs : List (String × Nat))
    (exp : List (String × Nat)) (sender : String) (nowMs : Nat) :
    List (String × Nat) × List (String × Nat) × List WorkerEvent :=
  if redisUp then
    let k := rateKey sender nowMs
    let cs2 := incrKey cs k
    let exp2 :=
      if counterOf cs2 k = 1 then exp ++ [(k, getSecondsUntilNextHour nowMs)]
      else exp
    (cs2, exp2, [WorkerEvent.ledgerIncr k])
  else (cs, exp, [])

/-- Shared persistent state: the `scheduled_emails` and `sent_emails`
tables, the Redis rate counters and their TTL registrations. -/
structure SysState where
  store : List (String × ScheduledRow)
  sent : List SentRow
  counters : List (String × Nat)
  expiries : List (String × Nat)
deriving DecidableEq, Repr

/-- Status of a unit in the Store. -/
def statusOf (st : SysState) (jobId : String) : Option Status :=
  (st.store.lookup jobId).map (·.status)

/-- Error detail of a unit in the Store (outer `none` means the unit is
absent). -/
def errorOf (st : SysState) (jobId : String) : Option (Option String) :=
  (st.store.lookup jobId).map (·.error_message)

/-- Number of `sent_emails` rows carrying the given unit id. -/
def sentCount (st : SysState) (jobId : String) : Nat :=
  st.sent.countP fun r => r.job_id == jobId

/-- The error message thrown by the worker when `canSendEmail` denies
(`Rate limit exceeded for sender. Hourly limit: N`, where N is the
configured hourly limit). -/
def rateLimitErrMsg (limit : Nat) : String :=
  "Rate limit exceeded for sender. Hourly limit: " ++ toString limit

/-- The worker processor of `emailWorker.ts` for one delivery of one job.

Program order, as in the source: set status `processing`; check
`canSendEmail` (throwing the rate-limit error if denied, before any
transport call); call `sendEmail` (the transport outcome is the
`transport` argument); `incrementSentCount`; set status `completed`;
`createSentEmail`.  Every thrown error lands in the catch block, which
sets status `failed` with the error message and rethrows (so BullMQ sees
a failed attempt). -/
def emailWorkerProcess (limit : Nat) (redisUp : Bool)
    (transport : Except String String) (nowMs : Nat) (st : SysState)
    (j : JobData) : SysState × List WorkerEvent × Except String String :=
  let sender := j.senderEmail.getD "default"
  let st1 : SysState :=
    { st with store := updateScheduledEmailStatus st.store j.jobId .processing none }
  let ev1 : List WorkerEvent := [.statusUpdate j.jobId .processing none]
  if canSendEmail limit redisUp st1.counters sender nowMs then
    match transport with
    | .error m =>
        ({ st1 with store := updateScheduledEmailStatus st1.store j.jobId .failed (some m) },
         ev1 ++ [.transportSend j.recipientEmail j.subject j.body,
                 .statusUpdate j.jobId .failed (some m)],
         .error m)
    | .ok messageId =>
        let incr := incrementSentCount redisUp st1.counters st1.expiries sender nowMs
        let st2 : SysState := { st1 with counters := incr.1, expiries := incr.2.1 }
        let st3 : SysState :=
          { st2 with store := updateScheduledEmailStatus st2.store j.jobId .completed none }
        match createSentEmail st3.sent ⟨j.jobId, j.recipientEmail, some messageId⟩ with
        | .ok sent2 =>
            ({ st3 with sent := sent2 },
             ev1 ++ [.transportSend j.recipientEmail j.subject j.body]
                 ++ incr.2.2
                 ++ [.statusUpdate j.jobId .completed none, .sentInsert j.jobId],
             .ok messageId)
        | .error m =>
            ({ st3 with store := updateScheduledEmailStatus st3.store j.jobId .failed (some m) },
             ev1 ++ [.transportSend j.recipientEmail j.subject j.body]
                 ++ incr.2.2
                 ++ [.statusUpdate j.jobId .completed none,
                     .statusUpdate j.jobId .failed (some m)],
             .error m)
  else
    ({ st1 with store := updateScheduledEmailStatus st1.store j.jobId .failed (some (rateLimitErrMsg limit)) },
     ev1 ++ [.statusUpdate j.jobId .failed (some (rateLimitErrMsg limit))],
     .error (rateLimitErrMsg limit))

/-- BullMQ exponential backoff with the configured base delay: the
re-queue delay after the k-th failed attempt is `base * 2 ^ (k - 1)`. -/
def backoffDelay (base : Nat) (attemptsMade : Nat) : Nat :=
  base * 2 ^ (attemptsMade - 1)

/-- Outcome of running one job through the BullMQ retry driver. -/
structure RunResult where
  state : SysState
  attemptsUsed : Nat
  backoffs : List Nat
  result : Except String String
deriving Repr

/-- The BullMQ retry driver, modelled from the queue configuration in
`redis.ts` (`attempts: 3`, `backoff: { type: exponential, delay: 2000 }`)
and the documented BullMQ semantics: a failed attempt is re-queued with
the exponential backoff delay while fewer than `maxAttempts` attempts have
been made, otherwise the job is left failed.  `outcomes` supplies the
transport outcome of each successive attempt; `made` is the number of
attempts already made before this delivery. -/
def runJobWithRetries (limit maxAttempts : Nat) (redisUp : Bool)
    (nowMs : Nat) (j : JobData) :
    List (Except String String) → Nat → SysState → RunResult
  | [], _, st => ⟨st, 0, [], .error "no attempt outcome supplied"⟩
  | t :: ts, made, st =>
      let out := emailWorkerProcess limit redisUp t nowMs st j
      match out.2.2 with
      | .ok m => ⟨out.1, 1, [], .ok m⟩
      | .error m =>
          if made + 1 < maxAttempts then
            let rest := runJobWithRetries limit maxAttempts redisUp nowMs j ts (made + 1) out.1
            ⟨rest.state, rest.attemptsUsed + 1,
             backoffDelay 2000 (made + 1) :: rest.backoffs, rest.result⟩
          else ⟨out.1, 1, [], .error m⟩

/-- The parsed body of a `POST /api/schedule-email` request, after the
JSON boundary: `startTime` is the epoch-millisecond instant the ISO
datetime string denotes. -/
structure ScheduleRequest where
  subject : String
  body : String
  recipients : List String
  startTime : Nat
  delayBetweenEmails : Nat
  hourlyLimit : Option Nat
deriving DecidableEq, Repr

/-- Zod check `z.number().int().min(1).optional()` on `hourlyLimit`. -/
def zodOverrideOk : Option Nat → Bool
  | none => true
  | some n => decide (1 ≤ n)

/-- The `scheduleEmailSchema.parse` checks: non-empty subject and body, at
least one recipient, every recipient of email shape (the zod email
predicate is the boundary parameter `isEmail`), and a valid optional
hourly-limit override.  `delayBetweenEmails ≥ 0` holds by the `Nat`
modelling of `z.number().int().min(0)`. -/
def zodValid (isEmail : String → Bool) (r : ScheduleRequest) : Bool :=
  decide (1 ≤ r.subject.length) && decide (1 ≤ r.body.length) &&
    decide (1 ≤ r.recipients.length) && r.recipients.all isEmail &&
    zodOverrideOk r.hourlyLimit

/-- Side effects of the schedule handler, in program order: a Store write
(`createScheduledEmail`) or a queue insertion (`addEmailJob`, carrying the
job payload and the computed delay in milliseconds). -/
inductive DispatchEvent
  | storeWrite (jobId : String) (row : ScheduledRow)
  | enqueue (data : JobData) (delayMs : Nat)
deriving DecidableEq, Repr

/-- Is the event a Store write? -/
def isStoreWriteEvent : DispatchEvent → Bool
  | .storeWrite _ _ => true
  | _ => false

/-- The per-recipient loop of the handler: for each `(jobId, recipient)`
pair it creates the Store record (status `pending`, scheduled time
`start + delayOffset`) and then enqueues the job with delay
`initialDelay + delayOffset` where `initialDelay = start - now`;
`delayOffset` grows by `delayBetweenEmails` per recipient. -/
def dispatchLoop (subject bodyText : String) (start nowMs delay : Nat) :
    List (String × String) → Nat → List DispatchEvent
  | [], _ => []
  | (jobId, recipient) :: rest, off =>
      DispatchEvent.storeWrite jobId
          ⟨recipient, subject, bodyText, start + off, Status.pending, none⟩
        :: DispatchEvent.enqueue
            ⟨recipient, subject, bodyText, start + off, jobId, none⟩
            ((start - nowMs) + off)
        :: dispatchLoop subject bodyText start nowMs delay rest (off + delay)

/-- The `POST /api/schedule-email` handler: zod validation (a `ZodError`
answers 400 with no side effects), then the strict-future check
`startDate <= now` (400, no side effects), then the per-recipient loop.
`jobIds` supplies the `email-UUID` identifiers the handler generates, one
per recipient.  Returns the HTTP status and the side-effect trace. -/
def scheduleEmailHandler (isEmail : String → Bool) (req : ScheduleRequest)
    (nowMs : Nat) (jobIds : List String) : Nat × List DispatchEvent :=
  if zodValid isEmail req then
    if req.startTime ≤ nowMs then (400, [])
    else
      (201,
       dispatchLoop req.subject req.body req.startTime nowMs
         req.delayBetweenEmails (jobIds.zip req.recipients) 0)
  else (400, [])

/-- First enqueued job payload of a dispatch trace. -/
def firstEnqueued (evs : List DispatchEvent) : Option JobData :=
  evs.findSome? fun e =>
    match e with
    | .enqueue d _ => some d
    | _ => none

/-- Modelled from the spec: the admission check as §4.3 words it, with
`hourlyLimit` "a process-wide configured default, optionally overridden
per request" — the per-request override, when present, replaces the
default in the comparison.  This definition follows the specification
text; the source `canSendEmail` takes no per-request limit. -/
def canSendEmailWithOverride (requestLimit : Option Nat) (defaultLimit : Nat)
    (redisUp : Bool) (cs : List (String × Nat)) (sender : String)
    (nowMs : Nat) : Bool :=
  if redisUp then
    decide (counterOf cs (rateKey sender nowMs) < requestLimit.getD defaultLimit)
  else true

/-- A serial execution of deliveries with the Ledger reachable throughout:
each job runs `emailWorkerProcess` to completion before the next starts.
Each list entry is a job, the instant its delivery runs, and its transport
outcome; the run returns the final state and, per job, its event trace and
result. -/
def seqRun (limit : Nat) :
    List (JobData × Nat × Except String String) → SysState →
    SysState × List (List WorkerEvent × Except String String)
  | [], st => (st, [])
  | (j, nowMs, tr) :: rest, st =>
      let out := emailWorkerProcess limit true tr nowMs st j
      let next := seqRun limit rest out.1
      (next.1, (out.2.1, out.2.2) :: next.2)

/-- Did the trace record an admission (counter increment) on this key? -/
def admitsKey (key : String) (evs : List WorkerEvent) : Bool :=
  evs.any fun e =>
    match e with
    | .ledgerIncr k => k == key
    | _ => false

/-- Did the delivery succeed? -/
def exceptOk : Except String String → Bool
  | .ok _ => true
  | .error _ => false

/-- Number of deliveries of a serial run that reached `completed` with an
admission recorded on the given (sender, hour bucket) key. -/
def completedAdmitted (key : String)
    (outs : List (List WorkerEvent × Except String String)) : Nat :=
  outs.countP fun o => exceptOk o.2 && admitsKey key o.1

theorem lookup_updateStatus_self (store : List (String × ScheduledRow))
    (jobId : String) (s : Status) (e : Option String) :
    (updateScheduledEmailStatus store jobId s e).lookup jobId
      = (store.lookup jobId).map
          fun r => { r with status := s, error_message := normErr e } := by
  induction store with
  | nil => rfl
  | cons hd tl ih =>
      obtain ⟨k, r⟩ := hd
      simp only [updateScheduledEmailStatus, List.map_cons] at ih ⊢
      cases hkb : (k == jobId) with
      | true =>
          have hk : k = jobId := eq_of_beq hkb
          subst hk
          simp [List.lookup, hkb]
      | false =>
          have hk : k ≠ jobId := by
            intro hh
            rw [hh] at hkb
            simp at hkb
          have h2 : (jobId == k) = false := by
            rw [beq_eq_false_iff_ne]
            exact Ne.symm hk
          rw [if_neg (by simp [hkb])]
          simp only [List.lookup, h2]
          exact ih

theorem counterOf_incrKey_self (cs : List (String × Nat)) (k : String) :
    counterOf (incrKey cs k) k = counterOf cs k + 1 := by
  induction cs with
  | nil => simp [incrKey, counterOf, List.lookup]
  | cons hd tl ih =>
      obtain ⟨k', n⟩ := hd
      cases hkb : (k' == k) with
      | true =>
          have hk : k' = k := eq_of_beq hkb
          subst hk
          simp [incrKey, counterOf, List.lookup, hkb]
      | false =>
          have hk : k' ≠ k := by
            intro hh
            rw [hh] at hkb
            simp at hkb
          have h2 : (k == k') = false := by
            rw [beq_eq_false_iff_ne]
            exact Ne.symm hk
          simp [incrKey, counterOf, List.lookup, hkb, h2] at ih ⊢
          exact ih

theorem counterOf_incrKey_ne (cs : List (String × Nat)) (k k2 : String)
    (hne : k2 ≠ k) :
    counterOf (incrKey cs k) k2 = counterOf cs k2 := by
  have hk2 : (k2 == k) = false := by
    rw [beq_eq_false_iff_ne]
    exact hne
  induction cs with
  | nil => simp [incrKey, counterOf, List.lookup, hk2]
  | cons hd tl ih =>
      obtain ⟨k', n⟩ := hd
      cases hkb : (k' == k) with
      | true =>
          have hk : k' = k := eq_of_beq hkb
          subst hk
          simp [incrKey, counterOf, List.lookup, hkb, hk2]
      | false =>
          cases hhb : (k2 == k') with
          | true =>
              have hh : k2 = k' := eq_of_beq hhb
              subst hh
              simp [incrKey, counterOf, List.lookup, hkb, hhb]
          | false =>
              simp [incrKey, counterOf, List.lookup, hkb, hhb] at ih ⊢
              exact ih

theorem canSendEmail_of_lt (limit : Nat) (cs : List (String × Nat))
    (sender : String) (nowMs : Nat)
    (h : counterOf cs (rateKey sender nowMs) < limit) :
    canSendEmail limit true cs sender nowMs = true := by
  simp [canSendEmail, h]

theorem canSendEmail_of_ge (limit : Nat) (cs : List (String × Nat))
    (sender : String) (nowMs : Nat)
    (h : limit ≤ counterOf cs (rateKey sender nowMs)) :
    canSendEmail limit true cs sender nowMs = false := by
  simp [canSendEmail]
  omega

theorem rateLimitErrMsg_ne_empty (limit : Nat) : rateLimitErrMsg limit ≠ "" := by
  intro h
  have h2 : (rateLimitErrMsg limit).length = 0 := by rw [h]; rfl
  rw [rateLimitErrMsg, String.length_append] at h2
  have h3 : 0 < ("Rate limit exceeded for sender. Hourly limit: " : String).length := by
    decide
  omega

theorem emailWorkerProcess_transport_error (limit nowMs : Nat) (st : SysState)
    (j : JobData) (m : String)
    (hc : counterOf st.counters (rateKey (j.senderEmail.getD "default") nowMs) < limit) :
    emailWorkerProcess limit true (.error m) nowMs st j =
      (⟨updateScheduledEmailStatus
          (updateScheduledEmailStatus st.store j.jobId .processing none)
          j.jobId .failed (some m),
        st.sent, st.counters, st.expiries⟩,
       [.statusUpdate j.jobId .processing none,
        .transportSend j.recipientEmail j.subject j.body,
        .statusUpdate j.jobId .failed (some m)],
       .error m) := by
  have hcan := canSendEmail_of_lt limit st.counters
    (j.senderEmail.getD "default") nowMs hc
  simp [emailWorkerProcess, hcan]

theorem emailWorkerProcess_rate_denied (limit nowMs : Nat) (st : SysState)
    (j : JobData) (tr : Except String String)
    (hd : limit ≤ counterOf st.counters (rateKey (j.senderEmail.getD "default") nowMs)) :
    emailWorkerProcess limit true tr nowMs st j =
      (⟨updateScheduledEmailStatus
          (updateScheduledEmailStatus st.store j.jobId .processing none)
          j.jobId .failed (some (rateLimitErrMsg limit)),
        st.sent, st.counters, st.expiries⟩,
       [.statusUpdate j.jobId .processing none,
        .statusUpdate j.jobId .failed (some (rateLimitErrMsg limit))],
       .error (rateLimitErrMsg limit)) := by
  have hcan := canSendEmail_of_ge limit st.counters
    (j.senderEmail.getD "default") nowMs hd
  simp [emailWorkerProcess, hcan]

theorem dispatchLoop_enumFrom (subject bodyText : String)
    (start nowMs delay : Nat) (pairs : List (String × String)) :
    ∀ k, dispatchLoop subject bodyText start nowMs delay pairs (k * delay) =
      (List.enumFrom k pairs).flatMap fun p =>
        [DispatchEvent.storeWrite p.2.1
            ⟨p.2.2, subject, bodyText, start + p.1 * delay, .pending, none⟩,
         DispatchEvent.enqueue
            ⟨p.2.2, subject, bodyText, start + p.1 * delay, p.2.1, none⟩
            ((start - nowMs) + p.1 * delay)] := by
  induction pairs with
  | nil => intro k; simp [dispatchLoop]
  | cons hd tl ih =>
      intro k
      obtain ⟨jobId, recipient⟩ := hd
      have h2 : k * delay + delay = (k + 1) * delay := by ring
      simp only [dispatchLoop, List.enumFrom, List.flatMap_cons, h2, ih (k + 1)]
      rfl

theorem countP_flatMap_pairs {α : Type} (l : List α) (w e : α → DispatchEvent)
    (hw : ∀ a, isStoreWriteEvent (w a) = true)
    (he : ∀ a, isStoreWriteEvent (e a) = false) :
    ((l.flatMap fun a => [w a, e a]).countP isStoreWriteEvent) = l.length := by
  induction l with
  | nil => rfl
  | cons hd tl ih =>
      simp [List.flatMap_cons, List.countP_append, List.countP_cons, hw, he, ih]

/-- C1: for every valid schedule request with n recipients (start strictly
in the future, delay at least 0), the handler answers 201 and its side
effects are, in input order, one Store write per recipient with status
`pending` and scheduled instant `start + i * delay`, each write occurring
before the enqueue of the same unit (with queue delay
`(start - now) + i * delay`); exactly n Store writes occur. -/
theorem c1_dispatcher_creates_units (isEmail : String → Bool)
    (req : ScheduleRequest) (nowMs : Nat) (jobIds : List String)
    (hval : zodValid isEmail req = true)
    (hfut : nowMs < req.startTime)
    (hlen : jobIds.length = req.recipients.length) :
    (scheduleEmailHandler isEmail req nowMs jobIds).1 = 201 ∧
    (scheduleEmailHandler isEmail req nowMs jobIds).2 =
      ((jobIds.zip req.recipients).enum.flatMap fun p =>
        [DispatchEvent.storeWrite p.2.1
            ⟨p.2.2, req.subject, req.body,
             req.startTime + p.1 * req.delayBetweenEmails, .pending, none⟩,
         DispatchEvent.enqueue
            ⟨p.2.2, req.subject, req.body,
             req.startTime + p.1 * req.delayBetweenEmails, p.2.1, none⟩
            ((req.startTime - nowMs) + p.1 * req.delayBetweenEmails)]) ∧
    ((scheduleEmailHandler isEmail req nowMs jobIds).2.countP isStoreWriteEvent)
      = req.recipients.length := by
  have hnle : ¬ req.startTime ≤ nowMs := by omega
  have htrace : (scheduleEmailHandler isEmail req nowMs jobIds).2 =
      ((jobIds.zip req.recipients).enum.flatMap fun p =>
        [DispatchEvent.storeWrite p.2.1
            ⟨p.2.2, req.subject, req.body,
             req.startTime + p.1 * req.delayBetweenEmails, .pending, none⟩,
         DispatchEvent.enqueue
            ⟨p.2.2, req.subject, req.body,
             req.startTime + p.1 * req.delayBetweenEmails, p.2.1, none⟩
            ((req.startTime - nowMs) + p.1 * req.delayBetweenEmails)]) := by
    have h0 := dispatchLoop_enumFrom req.subject req.body req.startTime nowMs
      req.delayBetweenEmails (jobIds.zip req.recipients) 0
    simp only [Nat.zero_mul] at h0
    simp [scheduleEmailHandler, hval, hnle, h0, List.enum]
  refine ⟨by simp [scheduleEmailHandler, hval, hnle], htrace, ?_⟩
  rw [htrace]
  have hc := countP_flatMap_pairs ((jobIds.zip req.recipients).enum)
    (fun p => DispatchEvent.storeWrite p.2.1
      ⟨p.2.2, req.subject, req.body,
       req.startTime + p.1 * req.delayBetweenEmails, .pending, none⟩)
    (fun p => DispatchEvent.enqueue
      ⟨p.2.2, req.subject, req.body,
       req.startTime + p.1 * req.delayBetweenEmails, p.2.1, none⟩
      ((req.startTime - nowMs) + p.1 * req.delayBetweenEmails))
    (fun a => rfl) (fun a => rfl)
  rw [hc]
  simp [List.enum_length, List.length_zip, hlen]

/-- Witness for C1 at a concrete two-recipient request. -/
theorem c1_dispatcher_creates_units_witness :
    zodValid (fun _ => true)
        ⟨"s", "b", ["a@x.com", "b@x.com"], 5000, 100, none⟩ = true ∧
    (0 : Nat) < 5000 ∧
    (["email-1", "email-2"] : List String).length
      = (["a@x.com", "b@x.com"] : List String).length ∧
    ((scheduleEmailHandler (fun _ => true)
        ⟨"s", "b", ["a@x.com", "b@x.com"], 5000, 100, none⟩ 0
        ["email-1", "email-2"]).1 = 201 ∧
     (scheduleEmailHandler (fun _ => true)
        ⟨"s", "b", ["a@x.com", "b@x.com"], 5000, 100, none⟩ 0
        ["email-1", "email-2"]).2 =
      (((["email-1", "email-2"] : List String).zip
          ["a@x.com", "b@x.com"]).enum.flatMap fun p =>
        [DispatchEvent.storeWrite p.2.1
            ⟨p.2.2, "s", "b", 5000 + p.1 * 100, .pending, none⟩,
         DispatchEvent.enqueue
            ⟨p.2.2, "s", "b", 5000 + p.1 * 100, p.2.1, none⟩
            ((5000 - 0) + p.1 * 100)]) ∧
     ((scheduleEmailHandler (fun _ => true)
        ⟨"s", "b", ["a@x.com", "b@x.com"], 5000, 100, none⟩ 0
        ["email-1", "email-2"]).2.countP isStoreWriteEvent)
      = (["a@x.com", "b@x.com"] : List String).length) :=
  ⟨by decide, by decide, by decide,
   c1_dispatcher_creates_units (fun _ => true)
     ⟨"s", "b", ["a@x.com", "b@x.com"], 5000, 100, none⟩ 0
     ["email-1", "email-2"] (by decide) (by decide) (by decide)⟩

/-- C5: a schedule request whose start is not strictly in the future, or
whose recipients list is empty, is rejected synchronously with HTTP 400
and produces no side effects: no Store write and no queue enqueue. -/
theorem c5_invalid_request_rejected (isEmail : String → Bool)
    (req : ScheduleRequest) (nowMs : Nat) (jobIds : List String)
    (h : req.startTime ≤ nowMs ∨ req.recipients = []) :
    scheduleEmailHandler isEmail req nowMs jobIds = (400, []) := by
  rcases h with h | h
  · by_cases hv : zodValid isEmail req = true
    · simp [scheduleEmailHandler, hv, h]
    · simp [scheduleEmailHandler, hv]
  · have hv : zodValid isEmail req = false := by
      simp [zodValid, h]
    simp [scheduleEmailHandler, hv]

/-- Witness for C5: a request whose start instant 5000 ms is not after
"now" (6000 ms) is rejected with no side effects. -/
theorem c5_invalid_request_rejected_witness :
    ((5000 : Nat) ≤ 6000 ∨ (["a@x.com"] : List String) = []) ∧
    scheduleEmailHandler (fun _ => true)
        ⟨"s", "b", ["a@x.com"], 5000, 100, none⟩ 6000 ["email-1"]
      = (400, []) :=
  ⟨Or.inl (by decide),
   c5_invalid_request_rejected (fun _ => true)
     ⟨"s", "b", ["a@x.com"], 5000, 100, none⟩ 6000 ["email-1"]
     (Or.inl (by decide))⟩

/-- C7: with the Ledger reachable, `canSendEmail` answers true exactly
when the admission count of (sender, UTC calendar-hour bucket of "now")
is strictly below the configured hourly limit; with the Ledger
unreachable, the catch block answers true (fail open). -/
theorem c7_canSendEmail_spec (limit : Nat) (cs : List (String × Nat))
    (sender : String) (nowMs : Nat) :
    (canSendEmail limit true cs sender nowMs = true
      ↔ counterOf cs (rateKey sender nowMs) < limit) ∧
    canSendEmail limit false cs sender nowMs = true := by
  constructor
  · simp [canSendEmail]
  · rfl

/-- C10: `incrementSentCount` raises nothing when the Ledger write fails:
the counter increment and the TTL registration are silently skipped, so a
delivery whose transport succeeds still completes (status `completed`,
result ok) while no admission is ever recorded in the rate counter. -/
theorem c10_increment_fail_silent (limit nowMs : Nat) (st : SysState)
    (j : JobData) (mid : String) (cs exp : List (String × Nat))
    (sender : String) (row : ScheduledRow)
    (hrow : st.store.lookup j.jobId = some row)
    (hfresh : st.sent.any (fun r => r.job_id == j.jobId) = false) :
    incrementSentCount false cs exp sender nowMs = (cs, exp, []) ∧
    (emailWorkerProcess limit false (.ok mid) nowMs st j).1.counters
      = st.counters ∧
    (emailWorkerProcess limit false (.ok mid) nowMs st j).1.expiries
      = st.expiries ∧
    (emailWorkerProcess limit false (.ok mid) nowMs st j).2.2 = .ok mid ∧
    statusOf (emailWorkerProcess limit false (.ok mid) nowMs st j).1 j.jobId
      = some .completed ∧
    ((emailWorkerProcess limit false (.ok mid) nowMs st j).2.1.countP
        isLedgerIncrEvent) = 0 := by
  have hcan : canSendEmail limit false st.counters (j.senderEmail.getD "default") nowMs
      = true := rfl
  have hins : createSentEmail st.sent ⟨j.jobId, j.recipientEmail, some mid⟩
      = .ok (st.sent ++ [⟨j.jobId, j.recipientEmail, some mid⟩]) := by
    simp [createSentEmail, hfresh]
  refine ⟨rfl, ?_, ?_, ?_, ?_, ?_⟩ <;>
    simp [emailWorkerProcess, hcan, incrementSentCount, hins, statusOf,
      lookup_updateStatus_self, hrow, List.countP_cons, isLedgerIncrEvent]

/-- Witness for C10 at a concrete delivery with the Ledger down. -/
theorem c10_increment_fail_silent_witness :
    (⟨[("w10", ⟨"w@x.com", "s", "b", 0, .pending, none⟩)], [], [], []⟩ :
        SysState).store.lookup "w10"
      = some ⟨"w@x.com", "s", "b", 0, .pending, none⟩ ∧
    ((⟨[("w10", ⟨"w@x.com", "s", "b", 0, .pending, none⟩)], [], [], []⟩ :
        SysState).sent.any (fun r => r.job_id == "w10")) = false ∧
    (incrementSentCount false [] [] "default" 0 = ([], [], []) ∧
     (emailWorkerProcess 100 false (.ok "mid") 0
        ⟨[("w10", ⟨"w@x.com", "s", "b", 0, .pending, none⟩)], [], [], []⟩
        ⟨"w@x.com", "s", "b", 0, "w10", none⟩).1.counters = [] ∧
     (emailWorkerProcess 100 false (.ok "mid") 0
        ⟨[("w10", ⟨"w@x.com", "s", "b", 0, .pending, none⟩)], [], [], []⟩
        ⟨"w@x.com", "s", "b", 0, "w10", none⟩).1.expiries = [] ∧
     (emailWorkerProcess 100 false (.ok "mid") 0
        ⟨[("w10", ⟨"w@x.com", "s", "b", 0, .pending, none⟩)], [], [], []⟩
        ⟨"w@x.com", "s", "b", 0, "w10", none⟩).2.2 = .ok "mid" ∧
     statusOf (emailWorkerProcess 100 false (.ok "mid") 0
        ⟨[("w10", ⟨"w@x.com", "s", "b", 0, .pending, none⟩)], [], [], []⟩
        ⟨"w@x.com", "s", "b", 0, "w10", none⟩).1 "w10" = some .completed ∧
     ((emailWorkerProcess 100 false (.ok "mid") 0
        ⟨[("w10", ⟨"w@x.com", "s", "b", 0, .pending, none⟩)], [], [], []⟩
        ⟨"w@x.com", "s", "b", 0, "w10", none⟩).2.1.countP
          isLedgerIncrEvent) = 0) :=
  ⟨by decide, by decide,
   c10_increment_fail_silent 100 0
     ⟨[("w10", ⟨"w@x.com", "s", "b", 0, .pending, none⟩)], [], [], []⟩
     ⟨"w@x.com", "s", "b", 0, "w10", none⟩ "mid" [] [] "default"
     ⟨"w@x.com", "s", "b", 0, .pending, none⟩ (by decide) (by decide)⟩

/-- C6: when the rate check denies a claimed unit, the worker contacts no
transport (its trace holds no transport event), fails the attempt with the
rate-limit error so BullMQ re-queues it with a backoff delay (2000 ms
after the first denial), and the unit's error detail records the reason
`Rate limit exceeded for sender. Hourly limit: N`. -/
theorem c6_rate_denied_retryable (limit nowMs : Nat) (st : SysState)
    (j : JobData) (tr : Except String String) (row : ScheduledRow)
    (rest : List (Except String String))
    (hrow : st.store.lookup j.jobId = some row)
    (hden : limit ≤ counterOf st.counters
      (rateKey (j.senderEmail.getD "default") nowMs)) :
    (emailWorkerProcess limit true tr nowMs st j).2.1
      = [.statusUpdate j.jobId .processing none,
         .statusUpdate j.jobId .failed (some (rateLimitErrMsg limit))] ∧
    ((emailWorkerProcess limit true tr nowMs st j).2.1.countP
        isTransportSendEvent) = 0 ∧
    (emailWorkerProcess limit true tr nowMs st j).2.2
      = .error (rateLimitErrMsg limit) ∧
    statusOf (emailWorkerProcess limit true tr nowMs st j).1 j.jobId
      = some .failed ∧
    errorOf (emailWorkerProcess limit true tr nowMs st j).1 j.jobId
      = some (some (rateLimitErrMsg limit)) ∧
    (runJobWithRetries limit 3 true nowMs j (tr :: rest) 0 st).backoffs.head?
      = some 2000 := by
  have heq := emailWorkerProcess_rate_denied limit nowMs st j tr hden
  have hne := rateLimitErrMsg_ne_empty limit
  refine ⟨?_, ?_, ?_, ?_, ?_, ?_⟩
  · rw [heq]
  · rw [heq]
    simp [List.countP_cons, isTransportSendEvent]
  · rw [heq]
  · rw [heq]
    simp [statusOf, lookup_updateStatus_self, hrow]
  · rw [heq]
    simp [errorOf, lookup_updateStatus_self, hrow, normErr, hne]
  · simp [runJobWithRetries, heq, backoffDelay]

/-- Witness for C6: a unit of a sender whose bucket counter already equals
the limit is denied, not sent, and re-queued with a 2000 ms backoff. -/
theorem c6_rate_denied_retryable_witness :
    ((⟨[("w6", ⟨"w@x.com", "s", "b", 0, .pending, none⟩)], [],
        [(rateKey "default" 0, 1)], []⟩ : SysState).store.lookup "w6"
      = some ⟨"w@x.com", "s", "b", 0, .pending, none⟩) ∧
    ((1 : Nat) ≤ counterOf [(rateKey "default" 0, 1)]
      (rateKey ((none : Option String).getD "default") 0)) ∧
    ((emailWorkerProcess 1 true (.ok "mid") 0
        ⟨[("w6", ⟨"w@x.com", "s", "b", 0, .pending, none⟩)], [],
          [(rateKey "default" 0, 1)], []⟩
        ⟨"w@x.com", "s", "b", 0, "w6", none⟩).2.1
      = [.statusUpdate "w6" .processing none,
         .statusUpdate "w6" .failed (some (rateLimitErrMsg 1))] ∧
     ((emailWorkerProcess 1 true (.ok "mid") 0
        ⟨[("w6", ⟨"w@x.com", "s", "b", 0, .pending, none⟩)], [],
          [(rateKey "default" 0, 1)], []⟩
        ⟨"w@x.com", "s", "b", 0, "w6", none⟩).2.1.countP
          isTransportSendEvent) = 0 ∧
     (emailWorkerProcess 1 true (.ok "mid") 0
        ⟨[("w6", ⟨"w@x.com", "s", "b", 0, .pending, none⟩)], [],
          [(rateKey "default" 0, 1)], []⟩
        ⟨"w@x.com", "s", "b", 0, "w6", none⟩).2.2
      = .error (rateLimitErrMsg 1) ∧
     statusOf (emailWorkerProcess 1 true (.ok "mid") 0
        ⟨[("w6", ⟨"w@x.com", "s", "b", 0, .pending, none⟩)], [],
          [(rateKey "default" 0, 1)], []⟩
        ⟨"w@x.com", "s", "b", 0, "w6", none⟩).1 "w6" = some .failed ∧
     errorOf (emailWorkerProcess 1 true (.ok "mid") 0
        ⟨[("w6", ⟨"w@x.com", "s", "b", 0, .pending, none⟩)], [],
          [(rateKey "default" 0, 1)], []⟩
        ⟨"w@x.com", "s", "b", 0, "w6", none⟩).1 "w6"
      = some (some (rateLimitErrMsg 1)) ∧
     (runJobWithRetries 1 3 true 0 ⟨"w@x.com", "s", "b", 0, "w6", none⟩
        [.ok "mid"] 0
        ⟨[("w6", ⟨"w@x.com", "s", "b", 0, .pending, none⟩)], [],
          [(rateKey "default" 0, 1)], []⟩).backoffs.head? = some 2000) :=
  ⟨by decide, by decide,
   c6_rate_denied_retryable 1 0
     ⟨[("w6", ⟨"w@x.com", "s", "b", 0, .pending, none⟩)], [],
       [(rateKey "default" 0, 1)], []⟩
     ⟨"w@x.com", "s", "b", 0, "w6", none⟩ (.ok "mid")
     ⟨"w@x.com", "s", "b", 0, .pending, none⟩ [] (by decide) (by decide)⟩

/-- C3: a unit whose transport call fails on every attempt is attempted
exactly 3 times (the configured `attempts: 3`), re-queued with exponential
backoff delays 2000 ms then 4000 ms (base 2000 doubling per attempt), and
ends with status `failed` and the non-empty transport error as its
detail. -/
theorem c3_retry_exhaustion (limit nowMs : Nat) (st : SysState)
    (j : JobData) (m : String) (row : ScheduledRow)
    (hm : m ≠ "")
    (hrow : st.store.lookup j.jobId = some row)
    (hc : counterOf st.counters
      (rateKey (j.senderEmail.getD "default") nowMs) < limit) :
    (runJobWithRetries limit 3 true nowMs j
        [.error m, .error m, .error m] 0 st).attemptsUsed = 3 ∧
    (runJobWithRetries limit 3 true nowMs j
        [.error m, .error m, .error m] 0 st).backoffs = [2000, 4000] ∧
    statusOf (runJobWithRetries limit 3 true nowMs j
        [.error m, .error m, .error m] 0 st).state j.jobId = some .failed ∧
    errorOf (runJobWithRetries limit 3 true nowMs j
        [.error m, .error m, .error m] 0 st).state j.jobId
      = some (some m) := by
  have heq1 := emailWorkerProcess_transport_error limit nowMs st j m hc
  have heq2 := emailWorkerProcess_transport_error limit nowMs
    ⟨updateScheduledEmailStatus
        (updateScheduledEmailStatus st.store j.jobId .processing none)
        j.jobId .failed (some m),
      st.sent, st.counters, st.expiries⟩ j m hc
  have heq3 := emailWorkerProcess_transport_error limit nowMs
    ⟨updateScheduledEmailStatus
        (updateScheduledEmailStatus
          (updateScheduledEmailStatus
            (updateScheduledEmailStatus st.store j.jobId .processing none)
            j.jobId .failed (some m))
          j.jobId .processing none)
        j.jobId .failed (some m),
      st.sent, st.counters, st.expiries⟩ j m hc
  have hrun : runJobWithRetries limit 3 true nowMs j
      [.error m, .error m, .error m] 0 st =
      ⟨⟨updateScheduledEmailStatus
          (updateScheduledEmailStatus
            (updateScheduledEmailStatus
              (updateScheduledEmailStatus
                (updateScheduledEmailStatus
                  (updateScheduledEmailStatus st.store j.jobId .processing none)
                  j.jobId .failed (some m))
                j.jobId .processing none)
              j.jobId .failed (some m))
            j.jobId .processing none)
          j.jobId .failed (some m),
        st.sent, st.counters, st.expiries⟩, 3, [2000, 4000], .error m⟩ := by
    simp [runJobWithRetries, heq1, heq2, heq3, backoffDelay]
  rw [hrun]
  refine ⟨rfl, rfl, ?_, ?_⟩
  · simp [statusOf, lookup_updateStatus_self, hrow]
  · simp [errorOf, lookup_updateStatus_self, hrow, normErr, hm]

/-- Witness for C3 at a concrete always-failing transport. -/
theorem c3_retry_exhaustion_witness :
    ("boom" : String) ≠ "" ∧
    ((⟨[("w3", ⟨"w@x.com", "s", "b", 0, .pending, none⟩)], [], [], []⟩ :
        SysState).store.lookup "w3"
      = some ⟨"w@x.com", "s", "b", 0, .pending, none⟩) ∧
    (counterOf ([] : List (String × Nat))
      (rateKey ((none : Option String).getD "default") 0) < 100) ∧
    ((runJobWithRetries 100 3 true 0 ⟨"w@x.com", "s", "b", 0, "w3", none⟩
        [.error "boom", .error "boom", .error "boom"] 0
        ⟨[("w3", ⟨"w@x.com", "s", "b", 0, .pending, none⟩)], [], [], []⟩).attemptsUsed
      = 3 ∧
     (runJobWithRetries 100 3 true 0 ⟨"w@x.com", "s", "b", 0, "w3", none⟩
        [.error "boom", .error "boom", .error "boom"] 0
        ⟨[("w3", ⟨"w@x.com", "s", "b", 0, .pending, none⟩)], [], [], []⟩).backoffs
      = [2000, 4000] ∧
     statusOf (runJobWithRetries 100 3 true 0
        ⟨"w@x.com", "s", "b", 0, "w3", none⟩
        [.error "boom", .error "boom", .error "boom"] 0
        ⟨[("w3", ⟨"w@x.com", "s", "b", 0, .pending, none⟩)], [], [], []⟩).state
        "w3" = some .failed ∧
     errorOf (runJobWithRetries 100 3 true 0
        ⟨"w@x.com", "s", "b", 0, "w3", none⟩
        [.error "boom", .error "boom", .error "boom"] 0
        ⟨[("w3", ⟨"w@x.com", "s", "b", 0, .pending, none⟩)], [], [], []⟩).state
        "w3" = some (some "boom")) :=
  ⟨by decide, by decide, by decide,
   c3_retry_exhaustion 100 0
     ⟨[("w3", ⟨"w@x.com", "s", "b", 0, .pending, none⟩)], [], [], []⟩
     ⟨"w@x.com", "s", "b", 0, "w3", none⟩ "boom"
     ⟨"w@x.com", "s", "b", 0, .pending, none⟩
     (by decide) (by decide) (by decide)⟩

/-- C2 counterexample: the status update has no guard, so a unit that
already reached the terminal status `completed` and is delivered again
(at-least-once redelivery) is transitioned out of `completed`.
Concretely: the first delivery of the pending unit `dup-1` returns ok and
leaves the terminal status `completed`; the redelivery then performs the
status writes `processing`, `completed`, `failed` — its first write
`processing` is a transition out of the terminal status `completed` — and
fails on the duplicate sent-record insert, leaving the unit `failed`
instead of `completed`. -/
theorem c2_counterexample :
    (emailWorkerProcess 100 true (.ok "msg-1") 0
        ⟨[("dup-1", ⟨"dup@example.com", "subj", "hello", 0, .pending, none⟩)],
          [], [], []⟩
        ⟨"dup@example.com", "subj", "hello", 0, "dup-1", none⟩).2.2
      = .ok "msg-1" ∧
    statusOf (emailWorkerProcess 100 true (.ok "msg-1") 0
        ⟨[("dup-1", ⟨"dup@example.com", "subj", "hello", 0, .pending, none⟩)],
          [], [], []⟩
        ⟨"dup@example.com", "subj", "hello", 0, "dup-1", none⟩).1 "dup-1"
      = some .completed ∧
    (emailWorkerProcess 100 true (.ok "msg-2") 0
        (emailWorkerProcess 100 true (.ok "msg-1") 0
          ⟨[("dup-1", ⟨"dup@example.com", "subj", "hello", 0, .pending, none⟩)],
            [], [], []⟩
          ⟨"dup@example.com", "subj", "hello", 0, "dup-1", none⟩).1
        ⟨"dup@example.com", "subj", "hello", 0, "dup-1", none⟩).2.1.head?
      = some (.statusUpdate "dup-1" .processing none) ∧
    statusWrites (emailWorkerProcess 100 true (.ok "msg-2") 0
        (emailWorkerProcess 100 true (.ok "msg-1") 0
          ⟨[("dup-1", ⟨"dup@example.com", "subj", "hello", 0, .pending, none⟩)],
            [], [], []⟩
          ⟨"dup@example.com", "subj", "hello", 0, "dup-1", none⟩).1
        ⟨"dup@example.com", "subj", "hello", 0, "dup-1", none⟩).2.1
      = [.processing, .completed, .failed] ∧
    (emailWorkerProcess 100 true (.ok "msg-2") 0
        (emailWorkerProcess 100 true (.ok "msg-1") 0
          ⟨[("dup-1", ⟨"dup@example.com", "subj", "hello", 0, .pending, none⟩)],
            [], [], []⟩
          ⟨"dup@example.com", "subj", "hello", 0, "dup-1", none⟩).1
        ⟨"dup@example.com", "subj", "hello", 0, "dup-1", none⟩).2.2
      = .error ("Duplicate entry dup-1 for key sent_emails.job_id") ∧
    statusOf (emailWorkerProcess 100 true (.ok "msg-2") 0
        (emailWorkerProcess 100 true (.ok "msg-1") 0
          ⟨[("dup-1", ⟨"dup@example.com", "subj", "hello", 0, .pending, none⟩)],
            [], [], []⟩
          ⟨"dup@example.com", "subj", "hello", 0, "dup-1", none⟩).1
        ⟨"dup@example.com", "subj", "hello", 0, "dup-1", none⟩).1 "dup-1"
      = some .failed := by
  refine ⟨?_, ?_, ?_, ?_, ?_, ?_⟩ <;> decide

/-- C2 (amended): within any single delivery of a unit that has no
sent-record yet, the status writes follow the state machine — exactly
`processing` then one terminal status (`completed` on transport success,
`failed` on denial or transport failure).  Monotonicity can be violated
only by redelivering a unit that already completed, because
`updateScheduledEmailStatus` carries no status guard. -/
theorem c2_status_machine_single_delivery (limit nowMs : Nat)
    (redisUp : Bool) (tr : Except String String) (st : SysState)
    (j : JobData)
    (hfresh : st.sent.any (fun r => r.job_id == j.jobId) = false) :
    statusWrites (emailWorkerProcess limit redisUp tr nowMs st j).2.1
      = [.processing, .completed] ∨
    statusWrites (emailWorkerProcess limit redisUp tr nowMs st j).2.1
      = [.processing, .failed] := by
  cases hcan : canSendEmail limit redisUp st.counters
      (j.senderEmail.getD "default") nowMs with
  | false =>
      right
      simp [emailWorkerProcess, hcan, statusWrites]
  | true =>
      cases tr with
      | error m =>
          right
          simp [emailWorkerProcess, hcan, statusWrites]
      | ok mid =>
          left
          have hins2 : createSentEmail st.sent ⟨j.jobId, j.recipientEmail, some mid⟩
              = .ok (st.sent ++ [⟨j.jobId, j.recipientEmail, some mid⟩]) := by
            simp [createSentEmail, hfresh]
          cases hru : redisUp with
          | true =>
              rw [hru] at hcan
              simp [emailWorkerProcess, hcan, hins2, statusWrites,
                incrementSentCount]
          | false =>
              rw [hru] at hcan
              simp [emailWorkerProcess, hcan, hins2, statusWrites,
                incrementSentCount]

/-- Witness for the amended C2 at a concrete fresh delivery. -/
theorem c2_status_machine_single_delivery_witness :
    ((⟨[("w2", ⟨"w@x.com", "s", "b", 0, .pending, none⟩)], [], [], []⟩ :
        SysState).sent.any (fun r => r.job_id == "w2")) = false ∧
    (statusWrites (emailWorkerProcess 100 true (.ok "mid") 0
        ⟨[("w2", ⟨"w@x.com", "s", "b", 0, .pending, none⟩)], [], [], []⟩
        ⟨"w@x.com", "s", "b", 0, "w2", none⟩).2.1
      = [.processing, .completed] ∨
     statusWrites (emailWorkerProcess 100 true (.ok "mid") 0
        ⟨[("w2", ⟨"w@x.com", "s", "b", 0, .pending, none⟩)], [], [], []⟩
        ⟨"w@x.com", "s", "b", 0, "w2", none⟩).2.1
      = [.processing, .failed]) :=
  ⟨by decide,
   c2_status_machine_single_delivery 100 0 true (.ok "mid")
     ⟨[("w2", ⟨"w@x.com", "s", "b", 0, .pending, none⟩)], [], [], []⟩
     ⟨"w@x.com", "s", "b", 0, "w2", none⟩ (by decide)⟩

/-- C9 counterexample: delivering the same unit twice does keep the
sent-records at one (the UNIQUE `job_id` constraint rejects the second
insert), but the side effects are not a single coherent outcome: the
transport is invoked again on the second delivery (the email is re-sent)
and the duplicate-insert error flips the unit's terminal status from
`completed` to `failed`. -/
theorem c9_counterexample :
    statusOf (emailWorkerProcess 100 true (.ok "m1") 7200000
        ⟨[("redeliver-1", ⟨"c@example.com", "s9", "b9", 7200000, .pending, none⟩)],
          [], [], []⟩
        ⟨"c@example.com", "s9", "b9", 7200000, "redeliver-1", none⟩).1
        "redeliver-1" = some .completed ∧
    sentCount (emailWorkerProcess 100 true (.ok "m2") 7200000
        (emailWorkerProcess 100 true (.ok "m1") 7200000
          ⟨[("redeliver-1", ⟨"c@example.com", "s9", "b9", 7200000, .pending, none⟩)],
            [], [], []⟩
          ⟨"c@example.com", "s9", "b9", 7200000, "redeliver-1", none⟩).1
        ⟨"c@example.com", "s9", "b9", 7200000, "redeliver-1", none⟩).1
        "redeliver-1" = 1 ∧
    ((emailWorkerProcess 100 true (.ok "m2") 7200000
        (emailWorkerProcess 100 true (.ok "m1") 7200000
          ⟨[("redeliver-1", ⟨"c@example.com", "s9", "b9", 7200000, .pending, none⟩)],
            [], [], []⟩
          ⟨"c@example.com", "s9", "b9", 7200000, "redeliver-1", none⟩).1
        ⟨"c@example.com", "s9", "b9", 7200000, "redeliver-1", none⟩).2.1.countP
        isTransportSendEvent) = 1 ∧
    statusOf (emailWorkerProcess 100 true (.ok "m2") 7200000
        (emailWorkerProcess 100 true (.ok "m1") 7200000
          ⟨[("redeliver-1", ⟨"c@example.com", "s9", "b9", 7200000, .pending, none⟩)],
            [], [], []⟩
          ⟨"c@example.com", "s9", "b9", 7200000, "redeliver-1", none⟩).1
        ⟨"c@example.com", "s9", "b9", 7200000, "redeliver-1", none⟩).1
        "redeliver-1" = some .failed := by
  refine ⟨?_, ?_, ?_, ?_⟩ <;> decide

theorem sentCount_processJob_le (limit nowMs : Nat) (redisUp : Bool)
    (tr : Except String String) (st : SysState) (j : JobData) (jid : String) :
    sentCount (emailWorkerProcess limit redisUp tr nowMs st j).1 jid
      ≤ max (sentCount st jid) 1 := by
  cases hcan : canSendEmail limit redisUp st.counters
      (j.senderEmail.getD "default") nowMs with
  | false =>
      simp [emailWorkerProcess, hcan, sentCount]
  | true =>
      cases tr with
      | error m =>
          simp [emailWorkerProcess, hcan, sentCount]
      | ok mid =>
          cases hdup : st.sent.any (fun r => r.job_id == j.jobId) with
          | true =>
              have hins : createSentEmail st.sent
                  ⟨j.jobId, j.recipientEmail, some mid⟩
                  = .error ("Duplicate entry " ++ j.jobId
                      ++ " for key sent_emails.job_id") := by
                simp [createSentEmail, hdup]
              simp [emailWorkerProcess, hcan, hins, sentCount]
          | false =>
              have hins : createSentEmail st.sent
                  ⟨j.jobId, j.recipientEmail, some mid⟩
                  = .ok (st.sent ++ [⟨j.jobId, j.recipientEmail, some mid⟩]) := by
                simp [createSentEmail, hdup]
              cases hjb : (j.jobId == jid) with
              | true =>
                  have hj : j.jobId = jid := eq_of_beq hjb
                  have hz : ∀ a ∈ st.sent, ¬a.job_id = jid := by
                    intro r hr
                    have := List.any_eq_false.mp hdup r hr
                    rw [hj] at this
                    simpa using this
                  simp [emailWorkerProcess, hcan, hins, sentCount,
                    List.countP_append, List.countP_cons, hjb]
                  exact hz
              | false =>
                  simp [emailWorkerProcess, hcan, hins, sentCount,
                    List.countP_append, List.countP_cons, hjb]

/-- C9 (amended): for any two deliveries of a unit with no prior
sent-record (any outcomes, any ledger reachability, any instants), at most
one sent-record for its id exists afterwards — this much the UNIQUE
`job_id` constraint guarantees.  The rest of the claim fails: the second
delivery re-invokes the transport and can flip the terminal status, as
there is no idempotency guard (see the counterexample). -/
theorem c9_single_sent_record (limit n1 n2 : Nat) (up1 up2 : Bool)
    (tr1 tr2 : Except String String) (st : SysState) (j : JobData)
    (h0 : sentCount st j.jobId = 0) :
    sentCount (emailWorkerProcess limit up2 tr2 n2
        (emailWorkerProcess limit up1 tr1 n1 st j).1 j).1 j.jobId ≤ 1 := by
  have h1 := sentCount_processJob_le limit n1 up1 tr1 st j j.jobId
  have h2 := sentCount_processJob_le limit n2 up2 tr2
    (emailWorkerProcess limit up1 tr1 n1 st j).1 j j.jobId
  omega

/-- Witness for the amended C9 at a concrete double delivery. -/
theorem c9_single_sent_record_witness :
    sentCount (⟨[("w9", ⟨"w@x.com", "s", "b", 0, .pending, none⟩)], [], [], []⟩ :
        SysState) "w9" = 0 ∧
    sentCount (emailWorkerProcess 100 true (.ok "m2") 0
        (emailWorkerProcess 100 true (.ok "m1") 0
          ⟨[("w9", ⟨"w@x.com", "s", "b", 0, .pending, none⟩)], [], [], []⟩
          ⟨"w@x.com", "s", "b", 0, "w9", none⟩).1
        ⟨"w@x.com", "s", "b", 0, "w9", none⟩).1 "w9" ≤ 1 :=
  ⟨by decide,
   c9_single_sent_record 100 0 0 true true (.ok "m1") (.ok "m2")
     ⟨[("w9", ⟨"w@x.com", "s", "b", 0, .pending, none⟩)], [], [], []⟩
     ⟨"w@x.com", "s", "b", 0, "w9", none⟩ (by decide)⟩

/-- C8 counterexample: a request carrying the override `hourlyLimit = 1`
produces a queue payload with no limit field, and the worker's admission
check for its unit uses the process-wide default (100): with one admission
already recorded in the sender's current bucket the unit is admitted and
completed (the transport is contacted), although the override-based check
the spec describes (`canSendEmailWithOverride`) denies it. -/
theorem c8_counterexample :
    firstEnqueued (scheduleEmailHandler (fun _ => true)
        ⟨"s", "b", ["u@example.com"], 10000, 0, some 1⟩ 0 ["email-c8"]).2
      = some ⟨"u@example.com", "s", "b", 10000, "email-c8", none⟩ ∧
    canSendEmail 100 true [(rateKey "default" 10000, 1)] "default" 10000
      = true ∧
    canSendEmailWithOverride (some 1) 100 true
      [(rateKey "default" 10000, 1)] "default" 10000 = false ∧
    ((emailWorkerProcess 100 true (.ok "m") 10000
        ⟨[("email-c8", ⟨"u@example.com", "s", "b", 10000, .pending, none⟩)],
          [], [(rateKey "default" 10000, 1)], []⟩
        ⟨"u@example.com", "s", "b", 10000, "email-c8", none⟩).2.1.countP
        isTransportSendEvent) = 1 ∧
    statusOf (emailWorkerProcess 100 true (.ok "m") 10000
        ⟨[("email-c8", ⟨"u@example.com", "s", "b", 10000, .pending, none⟩)],
          [], [(rateKey "default" 10000, 1)], []⟩
        ⟨"u@example.com", "s", "b", 10000, "email-c8", none⟩).1 "email-c8"
      = some .completed := by
  refine ⟨?_, ?_, ?_, ?_, ?_⟩ <;> decide

/-- C8 (amended): the `hourlyLimit` field of a request is validated and
then ignored — the handler's entire output (Store writes and queue
payloads) is the same for any two valid override values, the payload type
carries no limit, and the admission check always compares against the
process-wide configured default. -/
theorem c8_override_ignored (isEmail : String → Bool)
    (req : ScheduleRequest) (nowMs : Nat) (jobIds : List String)
    (x y : Option Nat)
    (hx : zodOverrideOk x = true) (hy : zodOverrideOk y = true) :
    scheduleEmailHandler isEmail { req with hourlyLimit := x } nowMs jobIds
      = scheduleEmailHandler isEmail { req with hourlyLimit := y } nowMs jobIds := by
  simp [scheduleEmailHandler, zodValid, hx, hy]

/-- Witness for the amended C8: overrides 1 and 1000 give identical
handler output. -/
theorem c8_override_ignored_witness :
    zodOverrideOk (some 1) = true ∧ zodOverrideOk (some 1000) = true ∧
    scheduleEmailHandler (fun _ => true)
        { (⟨"s", "b", ["u@example.com"], 10000, 0, none⟩ : ScheduleRequest)
            with hourlyLimit := some 1 } 0 ["email-c8"]
      = scheduleEmailHandler (fun _ => true)
        { (⟨"s", "b", ["u@example.com"], 10000, 0, none⟩ : ScheduleRequest)
            with hourlyLimit := some 1000 } 0 ["email-c8"] :=
  ⟨by decide, by decide,
   c8_override_ignored (fun _ => true)
     ⟨"s", "b", ["u@example.com"], 10000, 0, none⟩ 0 ["email-c8"]
     (some 1) (some 1000) (by decide) (by decide)⟩

theorem emailWorkerProcess_counter_effect (limit nowMs : Nat)
    (tr : Except String String) (st : SysState) (j : JobData) (key : String) :
    (admitsKey key (emailWorkerProcess limit true tr nowMs st j).2.1 = false ∧
     counterOf (emailWorkerProcess limit true tr nowMs st j).1.counters key
       = counterOf st.counters key)
    ∨ (admitsKey key (emailWorkerProcess limit true tr nowMs st j).2.1 = true ∧
       counterOf st.counters key < limit ∧
       counterOf (emailWorkerProcess limit true tr nowMs st j).1.counters key
         = counterOf st.counters key + 1) := by
  cases hcan : canSendEmail limit true st.counters
      (j.senderEmail.getD "default") nowMs with
  | false =>
      left
      constructor
      · simp [emailWorkerProcess, hcan, admitsKey]
      · simp [emailWorkerProcess, hcan]
  | true =>
      cases tr with
      | error m =>
          left
          constructor
          · simp [emailWorkerProcess, hcan, admitsKey]
          · simp [emailWorkerProcess, hcan]
      | ok mid =>
          have hlt : counterOf st.counters
              (rateKey (j.senderEmail.getD "default") nowMs) < limit := by
            simpa [canSendEmail] using hcan
          cases hkb : (rateKey (j.senderEmail.getD "default") nowMs == key) with
          | true =>
              right
              have hkey : rateKey (j.senderEmail.getD "default") nowMs = key :=
                eq_of_beq hkb
              cases hdup : st.sent.any (fun r => r.job_id == j.jobId) with
              | true =>
                  have hins : createSentEmail st.sent
                      ⟨j.jobId, j.recipientEmail, some mid⟩
                      = .error ("Duplicate entry " ++ j.jobId
                          ++ " for key sent_emails.job_id") := by
                    simp [createSentEmail, hdup]
                  refine ⟨?_, by rw [← hkey]; exact hlt, ?_⟩
                  · simp [emailWorkerProcess, hcan, hins, incrementSentCount,
                      admitsKey, hkb]
                  · simp [emailWorkerProcess, hcan, hins, incrementSentCount,
                      ← hkey, counterOf_incrKey_self]
              | false =>
                  have hins : createSentEmail st.sent
                      ⟨j.jobId, j.recipientEmail, some mid⟩
                      = .ok (st.sent ++ [⟨j.jobId, j.recipientEmail, some mid⟩]) := by
                    simp [createSentEmail, hdup]
                  refine ⟨?_, by rw [← hkey]; exact hlt, ?_⟩
                  · simp [emailWorkerProcess, hcan, hins, incrementSentCount,
                      admitsKey, hkb]
                  · simp [emailWorkerProcess, hcan, hins, incrementSentCount,
                      ← hkey, counterOf_incrKey_self]
          | false =>
              left
              have hkey : key ≠ rateKey (j.senderEmail.getD "default") nowMs := by
                intro hh
                rw [hh] at hkb
                simp at hkb
              cases hdup : st.sent.any (fun r => r.job_id == j.jobId) with
              | true =>
                  have hins : createSentEmail st.sent
                      ⟨j.jobId, j.recipientEmail, some mid⟩
                      = .error ("Duplicate entry " ++ j.jobId
                          ++ " for key sent_emails.job_id") := by
                    simp [createSentEmail, hdup]
                  refine ⟨?_, ?_⟩
                  · simp [emailWorkerProcess, hcan, hins, incrementSentCount,
                      admitsKey, hkb]
                  · simp [emailWorkerProcess, hcan, hins, incrementSentCount,
                      counterOf_incrKey_ne _ _ _ hkey]
              | false =>
                  have hins : createSentEmail st.sent
                      ⟨j.jobId, j.recipientEmail, some mid⟩
                      = .ok (st.sent ++ [⟨j.jobId, j.recipientEmail, some mid⟩]) := by
                    simp [createSentEmail, hdup]
                  refine ⟨?_, ?_⟩
                  · simp [emailWorkerProcess, hcan, hins, incrementSentCount,
                      admitsKey, hkb]
                  · simp [emailWorkerProcess, hcan, hins, incrementSentCount,
                      counterOf_incrKey_ne _ _ _ hkey]

theorem seqRun_admissions_bound (limit : Nat) (key : String) :
    ∀ (jobs : List (JobData × Nat × Except String String)) (st : SysState),
      counterOf st.counters key ≤ limit →
      completedAdmitted key (seqRun limit jobs st).2
        ≤ limit - counterOf st.counters key := by
  intro jobs
  induction jobs with
  | nil =>
      intro st h
      simp [seqRun, completedAdmitted]
  | cons hd tl ih =>
      intro st h
      obtain ⟨j, nowMs, tr⟩ := hd
      rcases emailWorkerProcess_counter_effect limit nowMs tr st j key with
        ⟨ha, hc⟩ | ⟨ha, hlt, hc⟩
      · have hnext := ih (emailWorkerProcess limit true tr nowMs st j).1
          (by rw [hc]; exact h)
        rw [hc] at hnext
        simp only [seqRun, completedAdmitted, List.countP_cons, ha,
          Bool.and_false, if_false] at hnext ⊢
        simpa [completedAdmitted] using hnext
      · have hnext := ih (emailWorkerProcess limit true tr nowMs st j).1
          (by rw [hc]; omega)
        rw [hc] at hnext
        simp only [seqRun, completedAdmitted, List.countP_cons, ha,
          Bool.and_true] at hnext ⊢
        cases hok : exceptOk (emailWorkerProcess limit true tr nowMs st j).2.2 with
        | true =>
            simp only [hok, if_true]
            omega
        | false =>
            simp only [hok, Bool.false_eq_true, if_false]
            omega

/-- C4 (amended): in any serial execution of deliveries with the Ledger
reachable (each delivery running to completion before the next starts),
for every sender/hour-bucket key starting at count 0, the number of
deliveries that complete with an admission recorded on that key never
exceeds the hourly limit.  As stated over concurrent workers the claim
fails: the check-then-increment pair in the worker is not atomic, so two
overlapping deliveries can both pass the check for the last slot (see the
counterexample). -/
theorem c4_sequential_rate_bound (limit : Nat) (key : String)
    (jobs : List (JobData × Nat × Except String String)) (st : SysState)
    (h0 : counterOf st.counters key = 0) :
    completedAdmitted key (seqRun limit jobs st).2 ≤ limit := by
  have hb := seqRun_admissions_bound limit key jobs st (by omega)
  omega

/-- Witness for the amended C4: three deliveries of the same sender in the
same hour with limit 2 — at most 2 complete with admissions recorded. -/
theorem c4_sequential_rate_bound_witness :
    counterOf ([] : List (String × Nat)) (rateKey "default" 0) = 0 ∧
    completedAdmitted (rateKey "default" 0)
      (seqRun 2
        [(⟨"a@x.com", "s", "b", 0, "q1", none⟩, 0, .ok "m1"),
         (⟨"b@x.com", "s", "b", 0, "q2", none⟩, 0, .ok "m2"),
         (⟨"c@x.com", "s", "b", 0, "q3", none⟩, 0, .ok "m3")]
        ⟨[("q1", ⟨"a@x.com", "s", "b", 0, .pending, none⟩),
          ("q2", ⟨"b@x.com", "s", "b", 0, .pending, none⟩),
          ("q3", ⟨"c@x.com", "s", "b", 0, .pending, none⟩)], [], [], []⟩).2
      ≤ 2 :=
  ⟨by decide,
   c4_sequential_rate_bound 2 (rateKey "default" 0)
     [(⟨"a@x.com", "s", "b", 0, "q1", none⟩, 0, .ok "m1"),
      (⟨"b@x.com", "s", "b", 0, "q2", none⟩, 0, .ok "m2"),
      (⟨"c@x.com", "s", "b", 0, "q3", none⟩, 0, .ok "m3")]
     ⟨[("q1", ⟨"a@x.com", "s", "b", 0, .pending, none⟩),
       ("q2", ⟨"b@x.com", "s", "b", 0, .pending, none⟩),
       ("q3", ⟨"c@x.com", "s", "b", 0, .pending, none⟩)], [], [], []⟩
     (by decide)⟩

/-- Two units pending before the race, hourly limit 1, Ledger reachable. -/
def raceState0 : SysState :=
  ⟨[("race-1", ⟨"a@example.com", "s", "b", 0, .pending, none⟩),
    ("race-2", ⟨"b@example.com", "s", "b", 0, .pending, none⟩)], [], [], []⟩

/-- An interleaving of two concurrent worker deliveries (worker
concurrency is 5 in the source, and every step below is separated from
the next by an await in the source, so this schedule is realizable).
Each step is exactly the corresponding source call, in per-worker program
order; the two `canSendEmail` reads both execute before either
`incrementSentCount` write.  The hourly limit is 1. -/
def raceDemo : SysState × Bool × Bool :=
  let s1 := SysState.mk
    (updateScheduledEmailStatus raceState0.store "race-1" .processing none)
    raceState0.sent raceState0.counters raceState0.expiries
  let s2 := SysState.mk
    (updateScheduledEmailStatus s1.store "race-2" .processing none)
    s1.sent s1.counters s1.expiries
  let c1 := canSendEmail 1 true s2.counters "default" 0
  let c2 := canSendEmail 1 true s2.counters "default" 0
  let i1 := incrementSentCount true s2.counters s2.expiries "default" 0
  let s3 := SysState.mk s2.store s2.sent i1.1 i1.2.1
  let s4 := SysState.mk
    (updateScheduledEmailStatus s3.store "race-1" .completed none)
    s3.sent s3.counters s3.expiries
  let s5 := match createSentEmail s4.sent ⟨"race-1", "a@example.com", some "m1"⟩ with
    | .ok l => SysState.mk s4.store l s4.counters s4.expiries
    | .error _ => s4
  let i2 := incrementSentCount true s5.counters s5.expiries "default" 0
  let s6 := SysState.mk s5.store s5.sent i2.1 i2.2.1
  let s7 := SysState.mk
    (updateScheduledEmailStatus s6.store "race-2" .completed none)
    s6.sent s6.counters s6.expiries
  let s8 := match createSentEmail s7.sent ⟨"race-2", "b@example.com", some "m2"⟩ with
    | .ok l => SysState.mk s7.store l s7.counters s7.expiries
    | .error _ => s7
  (s8, c1, c2)

/-- C4 counterexample: with hourly limit 1 and the Ledger reachable, two
concurrent deliveries of the same sender both pass `canSendEmail` (both
reads see count 0 before either increment), and both units reach
`completed` with admissions recorded in the same UTC hour bucket: 2 units
exceed the limit 1.  The sequential bound (`c4_sequential_rate_bound`)
shows the claim only holds when deliveries do not overlap. -/
theorem c4_counterexample :
    raceDemo.2.1 = true ∧
    raceDemo.2.2 = true ∧
    statusOf raceDemo.1 "race-1" = some .completed ∧
    statusOf raceDemo.1 "race-2" = some .completed ∧
    sentCount raceDemo.1 "race-1" = 1 ∧
    sentCount raceDemo.1 "race-2" = 1 ∧
    counterOf raceDemo.1.counters (rateKey "default" 0) = 2 ∧
    ¬ (2 ≤ 1) := by
  refine ⟨?_, ?_, ?_, ?_, ?_, ?_, ?_, ?_⟩ <;> decide

end ReachInbox
